import Mathlib

/-!
# Verification of the GPT-SoVITS server request handlers

Shallow embedding of `server/app.py` and `server/webui.py`: the temp-file
remover, the single-request handler `predict`, the batch handler
`batch_predict`, and the web-UI entry point `get_tts_wav`.

Filesystem paths are modelled structurally as lists of components
(`os.path.join dir name` appends one component, `os.path.basename` takes the
last one).  The external inference engine (`src.inference.TTSInference`) and
the startup tables (`server/example.json`, the model catalogs) are oracles
carried in an environment record; the handler's own control flow is translated
line by line from the source.  Handlers thread an explicit server state that
also records observable traces: engine weight-change calls, inference calls,
scheduled background cleanups, and error-log entries.
-/

deriving instance DecidableEq for Except

namespace GPTSoVITS

/-- A filesystem path as its list of components. -/
abbrev Path := List String

/-- A zip member as written by `zipf.write(audio_file, basename)`: the archive
name together with the wav payload read from disk at zip time. -/
structure ZipEntry where
  arcname : String
  sr : Nat
  samples : List Int
deriving DecidableEq

/-- Contents of one filesystem entry. -/
inductive FileData where
  | wav (sr : Nat) (samples : List Int)
  | zipData (entries : List ZipEntry)
  | dir
deriving DecidableEq

/-- The filesystem: an association list from path to contents. -/
abbrev Fs := List (Path × FileData)

def fsLookup (fs : Fs) (p : Path) : Option FileData :=
  match fs with
  | [] => none
  | (q, d) :: rest => if q = p then some d else fsLookup rest p

def fsErase (fs : Fs) (p : Path) : Fs :=
  fs.filter (fun e => decide (e.1 ≠ p))

/-- Create or overwrite the file at `p`. -/
def fsWrite (fs : Fs) (p : Path) (d : FileData) : Fs :=
  (p, d) :: fsErase fs p

/-- `os.path.isdir`. -/
def isdir (fs : Fs) (p : Path) : Bool :=
  fsLookup fs p == some FileData.dir

/-- `shutil.rmtree`: delete `p` and everything below it. -/
def rmtree (fs : Fs) (p : Path) : Fs :=
  fs.filter (fun e => ! p.isPrefixOf e.1)

/-- `os.rename src dst`: move the entry at `src` over `dst` (overwriting). -/
def fsRename (fs : Fs) (src dst : Path) : Fs :=
  match fsLookup fs src with
  | none => fs
  | some d => fsWrite (fsErase fs src) dst d

/-- Python exceptions that escape a handler uncaught. -/
inductive PyErr where
  | fileNotFound (p : Path)
  | unboundLocal (v : String)
deriving DecidableEq

/-- `remove_temp_file` (app.py lines 61-65):
`if os.path.isdir(path): shutil.rmtree(path) else: os.remove(path)`.
`os.remove` raises `FileNotFoundError` when the path does not exist. -/
def remove_temp_file (fs : Fs) (path : Path) : Except PyErr Fs :=
  if isdir fs path then
    Except.ok (rmtree fs path)
  else
    match fsLookup fs path with
    | some _ => Except.ok (fsErase fs path)
    | none => Except.error (PyErr.fileNotFound path)

/-- `LANG_DICT` (webui.py lines 15-22). -/
def LANG_DICT : String → Option String
  | "中文" => some "all_zh"
  | "英文" => some "en"
  | "日文" => some "all_ja"
  | "中英混合" => some "zh"
  | "日英混合" => some "ja"
  | "多语种混合" => some "auto"
  | _ => none

/-- One record of `server/example.json`: the preset bundle for a character. -/
structure CharacterPreset where
  audio_path : String
  ref_text : String
  ref_language : String
  gpt_weights : String
  sovits_weights : String
deriving DecidableEq

/-- `TTSModelRequest` (app.py lines 36-50). -/
structure TTSModelRequest where
  character_name : Option String := none
  ref_audio_path : Option String := none
  sovits_weights : Option String := none
  gpt_weights : Option String := none
  prompt_text : Option String := none
  prompt_language : Option String := none
  text : String
  text_language : String
  how_to_cut : String := "不切"
  top_k : Int := 5
  top_p : Rat := mkRat 7 10
  temperature : Rat := mkRat 7 10
  ref_free : Bool := false
  zip_filename : Option String := none
deriving DecidableEq

/-- The argument tuple of one `tts_inference.infer(...)` call. -/
structure InferCall where
  ref_audio_path : Option String
  prompt_text : Option String
  prompt_language : String
  text : String
  text_language : String
  how_to_cut : String
  top_k : Int
  top_p : Rat
  temperature : Rat
  ref_free : Bool
deriving DecidableEq

/-- Modelled from the spec: the Inference Engine (`src.inference.TTSInference`,
not under `server/`) keeps the currently loaded sovits and gpt weight paths as
the attributes `sovits_model` and `gpt_model` read by the handlers. -/
structure Engine where
  sovits_model : Option String
  gpt_model : Option String
deriving DecidableEq

/-- Mutable server state threaded through a handler, together with the
observable traces of its side effects. -/
structure ServerState where
  engine : Engine
  fs : Fs
  tempCounter : Nat
  cleanups : List Path := []
  logs : List String := []
  inferCalls : List InferCall := []
  sovitsChanges : List (Option String) := []
  gptChanges : List (Option String) := []
  artifacts : List Path := []
deriving DecidableEq

/-- Startup tables and external collaborators: the character preset table
loaded from `server/example.json`, the inference oracle (ok = the yielded
`(sr, audio)` pair, error = the raised exception's message), and the two
`ModelHandler.models_info` catalogs used by the web UI. -/
structure Env where
  example_json : String → Option CharacterPreset
  infer : InferCall → Except String (Nat × List Int)
  sovits_models_info : String → Option (String → Option String)
  gpt_models_info : String → Option (String → Option String)

/-- Modelled from the spec: `change_sovits_weights` loads the given weights,
making them the engine's current `sovits_model`.  The trace records the call. -/
def change_sovits_weights (st : ServerState) (w : Option String) : ServerState :=
  { st with
    engine := { st.engine with sovits_model := w }
    sovitsChanges := st.sovitsChanges ++ [w] }

/-- Modelled from the spec: `change_gpt_weights` loads the given weights,
making them the engine's current `gpt_model`.  The trace records the call. -/
def change_gpt_weights (st : ServerState) (w : Option String) : ServerState :=
  { st with
    engine := { st.engine with gpt_model := w }
    gptChanges := st.gptChanges ++ [w] }

/-- The weight-swap step shared by `predict` (app.py lines 111-114),
`batch_predict` (lines 169-172) and `get_tts_wav` (webui.py lines 88-91):
reload a weight set only when the requested path differs from the loaded one. -/
def swapWeights (st : ServerState) (sw gw : Option String) : ServerState :=
  let st1 := if st.engine.sovits_model ≠ sw then change_sovits_weights st sw else st
  if st1.engine.gpt_model ≠ gw then change_gpt_weights st1 gw else st1

/-- Character-preset resolution (app.py lines 105-110 and 163-168): a set
`character_name` overwrites the five identity fields from `example_json`;
a missing key raises `KeyError name`, returned here as `error name`. -/
def resolveCharacter (env : Env) (data : TTSModelRequest) :
    Except String TTSModelRequest :=
  match data.character_name with
  | none => Except.ok data
  | some name =>
      match env.example_json name with
      | none => Except.error name
      | some p =>
          Except.ok { data with
            ref_audio_path := some p.audio_path
            prompt_text := some p.ref_text
            prompt_language := some p.ref_language
            gpt_weights := some p.gpt_weights
            sovits_weights := some p.sovits_weights }

/-- Python renders `str(KeyError(k))` as the repr of the key:
a quoted string, or `None` for the `None` key. -/
def langLookupExc (k : Option String) : Except String String :=
  match k with
  | none => Except.error "None"
  | some s =>
      match LANG_DICT s with
      | some v => Except.ok v
      | none => Except.error ("\x27" ++ s ++ "\x27")

/-- The argument record of `tts_inference.infer` as built at the call sites
(app.py lines 118-128 and 178-188): request fields plus the looked-up language
codes and the text being synthesised. -/
def mkInferCall (d : TTSModelRequest) (pl tl : String) (txt : String) :
    InferCall :=
  { ref_audio_path := d.ref_audio_path
    prompt_text := d.prompt_text
    prompt_language := pl
    text := txt
    text_language := tl
    how_to_cut := d.how_to_cut
    top_k := d.top_k
    top_p := d.top_p
    temperature := d.temperature
    ref_free := d.ref_free }

/-- The inner `try` block around generation (app.py lines 116-135, 176-195).
Python evaluates the `infer` arguments left to right, so the two `LANG_DICT`
lookups happen inside this block and their `KeyError` is caught by
`except Exception`, which logs `Error during inference: str(e)` and raises
`HTTPException(500)` — signalled here by returning `none`. -/
def tryGenerate (env : Env) (st : ServerState) (d : TTSModelRequest)
    (txt : String) : ServerState × Option (Nat × List Int) :=
  match langLookupExc d.prompt_language with
  | Except.error s =>
      ({ st with logs := st.logs ++ ["Error during inference: " ++ s] }, none)
  | Except.ok pl =>
      match LANG_DICT d.text_language with
      | none =>
          ({ st with logs := st.logs ++
              ["Error during inference: \x27" ++ d.text_language ++ "\x27"] },
           none)
      | some tl =>
          let c := mkInferCall d pl tl txt
          let st1 := { st with inferCalls := st.inferCalls ++ [c] }
          match env.infer c with
          | Except.error msg =>
              ({ st1 with logs := st1.logs ++
                  ["Error during inference: " ++ msg] }, none)
          | Except.ok v => (st1, some v)

/-- `tempfile.NamedTemporaryFile(delete=False, suffix=".wav")`: a fresh
uniquely-named path.  Per the create contract the name collides with no other
path, modelled by placing temp files under their own directory component. -/
def tmpWavPath (n : Nat) : Path :=
  ["pytmp", toString n ++ ".wav"]

/-- Fresh name for the batch zip (`suffix=".zip"`). -/
def tmpZipPath (n : Nat) : Path :=
  ["pytmp", toString n ++ ".zip"]

/-- `os.path.join(tempfile.gettempdir(), name)`. -/
def tmpJoin (name : String) : Path :=
  ["tmp", name]

/-- `os.path.basename`. -/
def basename (p : Path) : String :=
  p.getLast?.getD ""

/-- Outcome of a handler, as seen by the HTTP layer. -/
inductive HandlerResult where
  | fileResponse (path : Path) (mediaType : String)
  | clientError (msg : String) (code : Nat)
  | httpError (code : Nat) (detail : String)
  | pyError (e : PyErr)
deriving DecidableEq

/-- `predict` (app.py lines 98-147).  The outer `except KeyError` catches only
the character lookup; a raised `HTTPException` from the inner block passes
through it. -/
def predict (env : Env) (data : TTSModelRequest) (st : ServerState) :
    HandlerResult × ServerState :=
  match resolveCharacter env data with
  | Except.error name =>
      (HandlerResult.clientError ("Missing necessary parameter: " ++ name) 400,
       st)
  | Except.ok d =>
      let st := swapWeights st d.sovits_weights d.gpt_weights
      match tryGenerate env st d d.text with
      | (st, none) => (HandlerResult.httpError 500 "Error during inference", st)
      | (st, some (sr, audio)) =>
          let p := tmpWavPath st.tempCounter
          let st := { st with
            tempCounter := st.tempCounter + 1
            fs := fsWrite st.fs p (FileData.wav sr audio)
            cleanups := st.cleanups ++ [p]
            artifacts := st.artifacts ++ [p] }
          (HandlerResult.fileResponse p "audio/wav", st)

/-- One iteration of the batch loop (app.py lines 174-205): synthesise, write
to a fresh temp file, rename it to `join(gettempdir(), filename)`, and append
the final path to `audio_files` (recorded in the `artifacts` trace).
`none` signals the raised `HTTPException(500)` aborting the loop. -/
def batchRow (env : Env) (d : TTSModelRequest) (st : ServerState)
    (row : String × String) : ServerState × Option Path :=
  match tryGenerate env st d row.1 with
  | (st, none) => (st, none)
  | (st, some (sr, audio)) =>
      let tp := tmpWavPath st.tempCounter
      let fp := tmpJoin row.2
      let st := { st with
        tempCounter := st.tempCounter + 1
        fs := fsWrite (fsErase (fsWrite st.fs tp (FileData.wav sr audio)) tp)
                fp (FileData.wav sr audio)
        artifacts := st.artifacts ++ [fp] }
      (st, some fp)

/-- The batch loop over `zip(texts, filenames)`; on abort the rows after the
failing one are never reached. -/
def batchRows (env : Env) (d : TTSModelRequest) :
    ServerState → List (String × String) → ServerState × Option (List Path)
  | st, [] => (st, some [])
  | st, row :: rest =>
      match batchRow env d st row with
      | (st, none) => (st, none)
      | (st, some fp) =>
          match batchRows env d st rest with
          | (st, none) => (st, none)
          | (st, some fps) => (st, some (fp :: fps))

/-- `zipf.write(audio_file, os.path.basename(audio_file))` over `audio_files`
(app.py lines 209-211): each entry is read from the filesystem as it is at zip
time.  A missing or non-wav source (unreachable in the handler flow) yields
`none`, standing for the exception `zipf.write` would raise. -/
def zipEntries (fs : Fs) : List Path → Option (List ZipEntry)
  | [] => some []
  | p :: rest =>
      match fsLookup fs p with
      | some (FileData.wav sr a) =>
          (zipEntries fs rest).map (fun es => ⟨basename p, sr, a⟩ :: es)
      | _ => none

/-- `batch_predict` (app.py lines 150-224).  After a successful loop the zip
is created and optionally renamed; cleanup of each audio file is scheduled,
and then the zip cleanup references `final_zip_path`, which is unbound when
`zip_filename` was not supplied (`UnboundLocalError`). -/
def batch_predict (env : Env) (data : TTSModelRequest)
    (texts filenames : List String) (st : ServerState) :
    HandlerResult × ServerState :=
  match resolveCharacter env data with
  | Except.error name =>
      (HandlerResult.clientError ("Missing necessary parameter: " ++ name) 400,
       st)
  | Except.ok d =>
      let st := swapWeights st d.sovits_weights d.gpt_weights
      match batchRows env d st (texts.zip filenames) with
      | (st, none) => (HandlerResult.httpError 500 "Error during inference", st)
      | (st, some audio_files) =>
          let zp := tmpZipPath st.tempCounter
          let st := { st with tempCounter := st.tempCounter + 1 }
          match zipEntries st.fs audio_files with
          | none => (HandlerResult.pyError (PyErr.fileNotFound zp), st)
          | some entries =>
              let st := { st with fs := fsWrite st.fs zp (FileData.zipData entries) }
              match data.zip_filename with
              | some z =>
                  let fzp := tmpJoin z
                  let st := { st with fs := fsRename st.fs zp fzp }
                  let st := { st with cleanups := st.cleanups ++ audio_files ++ [fzp] }
                  (HandlerResult.fileResponse fzp "application/zip", st)
              | none =>
                  let st := { st with cleanups := st.cleanups ++ audio_files }
                  (HandlerResult.pyError (PyErr.unboundLocal "final_zip_path"), st)

/-- Both language lookups of a request, when they succeed: the codes for
`prompt_language` and `text_language`.  `none` means one of them would raise
`KeyError` inside the generation block. -/
def resolvedLangs (d : TTSModelRequest) : Option (String × String) :=
  match langLookupExc d.prompt_language, LANG_DICT d.text_language with
  | Except.ok pl, some tl => some (pl, tl)
  | _, _ => none

/-- The `(sr, audio)` pair an inference call yields, with a default for the
error case (used only under hypotheses that rule the error out). -/
def inferOut (env : Env) (c : InferCall) : Nat × List Int :=
  match env.infer c with
  | Except.ok v => v
  | Except.error _ => (0, [])

/-- The text of the last batch row carrying the given output filename: the
row whose audio survives at `join(gettempdir(), filename)` after all renames. -/
def lastFileText : List (String × String) → String → Option String
  | [], _ => none
  | r :: rest, f =>
      match lastFileText rest f with
      | some t => some t
      | none => if r.2 = f then some r.1 else none

/-- The zip entry the batch handler records for row `r`: the row's filename as
archive name, with the audio of the last row sharing that filename (the file's
content at zip time). -/
def rowEntry (env : Env) (d : TTSModelRequest) (pl tl : String)
    (rows : List (String × String)) (r : String × String) : ZipEntry :=
  match lastFileText rows r.2 with
  | some t =>
      ⟨r.2, (inferOut env (mkInferCall d pl tl t)).1,
        (inferOut env (mkInferCall d pl tl t)).2⟩
  | none => ⟨r.2, 0, []⟩

/-- The entries of the zip artifact a successful batch produces: one per row
in row order, each named by the row's filename. -/
def batchZipEntries (env : Env) (d : TTSModelRequest) (pl tl : String)
    (texts filenames : List String) : List ZipEntry :=
  (texts.zip filenames).map (rowEntry env d pl tl (texts.zip filenames))

/-- The audio found on disk at an artifact path at zip time: the output of
the last row whose filename is the path's basename. -/
def lastAudioAt (env : Env) (d : TTSModelRequest) (pl tl : String)
    (rows : List (String × String)) (p : Path) : Nat × List Int :=
  inferOut env (mkInferCall d pl tl ((lastFileText rows (basename p)).getD ""))

/-- `get_tts_wav` (webui.py lines 72-106): resolve the two catalog entries,
swap weights under the same differs-only guard, and call `infer`.  There is no
`try` here, so a failed lookup propagates (`error key`). -/
def get_tts_wav (env : Env) (st : ServerState)
    (sovits_speaker sovits_model_name gpt_speaker gpt_model_name : String)
    (tts_ref_audio : String) (tts_prompt_text : String)
    (tts_prompt_language : String) (tts_text : String)
    (tts_text_language : String) (how_to_cut : String) (top_k : Int)
    (top_p temperature : Rat) (ref_free : Bool) :
    ServerState × Except String (Nat × List Int) :=
  match env.sovits_models_info sovits_speaker with
  | none => (st, Except.error sovits_speaker)
  | some stab =>
      match stab sovits_model_name with
      | none => (st, Except.error sovits_model_name)
      | some sm =>
          match env.gpt_models_info gpt_speaker with
          | none => (st, Except.error gpt_speaker)
          | some gtab =>
              match gtab gpt_model_name with
              | none => (st, Except.error gpt_model_name)
              | some gm =>
                  let st := swapWeights st (some sm) (some gm)
                  match LANG_DICT tts_prompt_language with
                  | none => (st, Except.error tts_prompt_language)
                  | some pl =>
                      match LANG_DICT tts_text_language with
                      | none => (st, Except.error tts_text_language)
                      | some tl =>
                          let c : InferCall :=
                            { ref_audio_path := some tts_ref_audio
                              prompt_text := some tts_prompt_text
                              prompt_language := pl
                              text := tts_text
                              text_language := tl
                              how_to_cut := how_to_cut
                              top_k := top_k
                              top_p := top_p
                              temperature := temperature
                              ref_free := ref_free }
                          let st := { st with inferCalls := st.inferCalls ++ [c] }
                          (st, env.infer c)

/-! ### Concrete fixtures for closed evaluations -/

/-- A sample character preset, standing for one record of `example.json`. -/
def presetDemo : CharacterPreset :=
  { audio_path := "examples/demo.wav"
    ref_text := "示例文本"
    ref_language := "中文"
    gpt_weights := "pretrained_models/gpt_weights/demo.ckpt"
    sovits_weights := "pretrained_models/sovits_weights/demo.pth" }

/-- A concrete environment: one known character `demo`, catalogs exposing a
model `m1` for every speaker, and an inference oracle that fails exactly on
the text `t2` and otherwise yields a fixed `(sr, audio)` pair. -/
def envA : Env :=
  { example_json := fun n => if n = "demo" then some presetDemo else none
    infer := fun c =>
      if c.text = "t2" then Except.error "boom"
      else Except.ok (32000, [1, 2, 3])
    sovits_models_info := fun _ =>
      some (fun m => if m = "m1" then some "sovits/spk/m1.pth" else none)
    gpt_models_info := fun _ =>
      some (fun m => if m = "m1" then some "gpt/spk/m1.ckpt" else none) }

/-- A fully explicit request (no character shorthand). -/
def dataBase : TTSModelRequest :=
  { character_name := none
    ref_audio_path := some "examples/ref.wav"
    sovits_weights := some "sv.pth"
    gpt_weights := some "gp.ckpt"
    prompt_text := some "参考文本"
    prompt_language := some "中文"
    text := "你好"
    text_language := "中文"
    zip_filename := none }

/-- An initial server state whose engine already holds the weights `dataBase`
asks for. -/
def st0 : ServerState :=
  { engine := { sovits_model := some "sv.pth", gpt_model := some "gp.ckpt" }
    fs := []
    tempCounter := 0 }

/-! ### Filesystem lemmas -/

theorem fsLookup_fsErase (fs : Fs) (p q : Path) :
    fsLookup (fsErase fs p) q = if q = p then none else fsLookup fs q := by
  induction fs with
  | nil => simp [fsErase, fsLookup]
  | cons e rest ih =>
      obtain ⟨r, dd⟩ := e
      by_cases h1 : r = p <;> by_cases h2 : q = p <;> by_cases h3 : r = q <;>
        simp_all [fsErase, fsLookup, List.filter_cons]

theorem fsLookup_fsWrite (fs : Fs) (p : Path) (d : FileData) (q : Path) :
    fsLookup (fsWrite fs p d) q = if q = p then some d else fsLookup fs q := by
  by_cases h : q = p
  · simp [fsWrite, fsLookup, h]
  · simp [fsWrite, fsLookup, fsLookup_fsErase, h, Ne.symm h]

theorem tmpJoin_ne_tmpWavPath (f : String) (n : Nat) :
    tmpJoin f ≠ tmpWavPath n := by
  simp [tmpJoin, tmpWavPath]

theorem tmpJoin_inj {f g : String} : tmpJoin f = tmpJoin g ↔ f = g := by
  simp [tmpJoin]

theorem basename_tmpJoin (f : String) : basename (tmpJoin f) = f := rfl

/-! ### Weight-swap characterization -/

theorem swapWeights_spec (st : ServerState) (sw gw : Option String) :
    (swapWeights st sw gw).sovitsChanges
      = st.sovitsChanges ++ (if st.engine.sovits_model = sw then [] else [sw])
  ∧ (swapWeights st sw gw).gptChanges
      = st.gptChanges ++ (if st.engine.gpt_model = gw then [] else [gw])
  ∧ (swapWeights st sw gw).engine = ⟨sw, gw⟩
  ∧ (swapWeights st sw gw).fs = st.fs
  ∧ (swapWeights st sw gw).tempCounter = st.tempCounter
  ∧ (swapWeights st sw gw).cleanups = st.cleanups
  ∧ (swapWeights st sw gw).logs = st.logs
  ∧ (swapWeights st sw gw).inferCalls = st.inferCalls
  ∧ (swapWeights st sw gw).artifacts = st.artifacts := by
  obtain ⟨eng, fs, tc, cl, lg, ic, sc, gc, ar⟩ := st
  obtain ⟨es, eg⟩ := eng
  by_cases h1 : es = sw <;> by_cases h2 : eg = gw <;>
    simp [swapWeights, change_sovits_weights, change_gpt_weights, h1, h2]

/-! ### Generation-block lemmas -/

theorem tryGenerate_ok (env : Env) (st : ServerState) (d : TTSModelRequest)
    (txt pl tl : String) (v : Nat × List Int)
    (hpl : langLookupExc d.prompt_language = Except.ok pl)
    (htl : LANG_DICT d.text_language = some tl)
    (hv : env.infer (mkInferCall d pl tl txt) = Except.ok v) :
    tryGenerate env st d txt
      = ({ st with inferCalls := st.inferCalls ++ [mkInferCall d pl tl txt] },
         some v) := by
  simp [tryGenerate, hpl, htl, hv]

theorem tryGenerate_inferError (env : Env) (st : ServerState)
    (d : TTSModelRequest) (txt pl tl msg : String)
    (hpl : langLookupExc d.prompt_language = Except.ok pl)
    (htl : LANG_DICT d.text_language = some tl)
    (hv : env.infer (mkInferCall d pl tl txt) = Except.error msg) :
    tryGenerate env st d txt
      = ({ st with
            inferCalls := st.inferCalls ++ [mkInferCall d pl tl txt]
            logs := st.logs ++ ["Error during inference: " ++ msg] },
         none) := by
  simp [tryGenerate, hpl, htl, hv]

theorem tryGenerate_promptLangError (env : Env) (st : ServerState)
    (d : TTSModelRequest) (txt s : String)
    (h : langLookupExc d.prompt_language = Except.error s) :
    tryGenerate env st d txt
      = ({ st with logs := st.logs ++ ["Error during inference: " ++ s] },
         none) := by
  simp [tryGenerate, h]

theorem tryGenerate_textLangError (env : Env) (st : ServerState)
    (d : TTSModelRequest) (txt pl : String)
    (hpl : langLookupExc d.prompt_language = Except.ok pl)
    (htl : LANG_DICT d.text_language = none) :
    tryGenerate env st d txt
      = ({ st with logs := st.logs ++
            ["Error during inference: \x27" ++ d.text_language ++ "\x27"] },
         none) := by
  simp [tryGenerate, hpl, htl]

theorem tryGenerate_preserves (env : Env) (st : ServerState)
    (d : TTSModelRequest) (txt : String) :
    (tryGenerate env st d txt).1.sovitsChanges = st.sovitsChanges
  ∧ (tryGenerate env st d txt).1.gptChanges = st.gptChanges
  ∧ (tryGenerate env st d txt).1.cleanups = st.cleanups
  ∧ (tryGenerate env st d txt).1.engine = st.engine
  ∧ (tryGenerate env st d txt).1.tempCounter = st.tempCounter
  ∧ (tryGenerate env st d txt).1.fs = st.fs
  ∧ (tryGenerate env st d txt).1.artifacts = st.artifacts := by
  simp only [tryGenerate]
  split
  · simp
  · split
    · simp
    · split <;> simp

/-- `predict` performs its weight swaps before generation; the traces of the
resulting state coincide with those of the swapped state. -/
theorem predict_changes (env : Env) (data : TTSModelRequest)
    (st : ServerState) (d : TTSModelRequest)
    (hres : resolveCharacter env data = Except.ok d) :
    (predict env data st).2.sovitsChanges
      = (swapWeights st d.sovits_weights d.gpt_weights).sovitsChanges
  ∧ (predict env data st).2.gptChanges
      = (swapWeights st d.sovits_weights d.gpt_weights).gptChanges := by
  have hP := tryGenerate_preserves env
    (swapWeights st d.sovits_weights d.gpt_weights) d d.text
  cases hTG : tryGenerate env
      (swapWeights st d.sovits_weights d.gpt_weights) d d.text with
  | mk stx res =>
      rw [hTG] at hP
      simp only [predict, hres, hTG]
      rcases res with _ | ⟨sr, audio⟩
      · exact ⟨hP.1, hP.2.1⟩
      · simpa using ⟨hP.1, hP.2.1⟩

/-- `get_tts_wav` likewise swaps before anything else; all later branches
leave the weight-change traces untouched. -/
theorem get_tts_wav_changes (env : Env) (st2 : ServerState)
    (ssp smn gsp gmn ra ptxt plng ttxt tlng hcut : String)
    (tk : Int) (tp tmp : Rat) (rf : Bool)
    (stab gtab : String → Option String) (sm gm : String)
    (hs1 : env.sovits_models_info ssp = some stab)
    (hs2 : stab smn = some sm)
    (hg1 : env.gpt_models_info gsp = some gtab)
    (hg2 : gtab gmn = some gm) :
    (get_tts_wav env st2 ssp smn gsp gmn ra ptxt plng ttxt tlng hcut
        tk tp tmp rf).1.sovitsChanges
      = (swapWeights st2 (some sm) (some gm)).sovitsChanges
  ∧ (get_tts_wav env st2 ssp smn gsp gmn ra ptxt plng ttxt tlng hcut
        tk tp tmp rf).1.gptChanges
      = (swapWeights st2 (some sm) (some gm)).gptChanges := by
  simp only [get_tts_wav, hs1, hs2, hg1, hg2]
  split
  · simp
  · split <;> simp

/-! ### Batch-loop lemmas -/

theorem lastFileText_eq_none (l : List (String × String)) (f : String) :
    lastFileText l f = none ↔ f ∉ l.map Prod.snd := by
  induction l with
  | nil => simp [lastFileText]
  | cons r rest ih =>
      cases h : lastFileText rest f with
      | none =>
          have hrest : f ∉ rest.map Prod.snd := ih.mp h
          by_cases hr : r.2 = f
          · simp [lastFileText, h, hr, hrest]
          · simp [lastFileText, h, hr, hrest]
            exact fun hh => hr hh.symm
      | some t =>
          have hrest : f ∈ rest.map Prod.snd := by
            by_contra hc
            rw [ih.mpr hc] at h
            exact Option.noConfusion h
          simp [lastFileText, h, hrest]

theorem lastFileText_mem (l : List (String × String)) (r : String × String)
    (hr : r ∈ l) : ∃ t, lastFileText l r.2 = some t := by
  cases h : lastFileText l r.2 with
  | none =>
      exact absurd (List.mem_map_of_mem Prod.snd hr)
        ((lastFileText_eq_none l r.2).mp h)
  | some t => exact ⟨t, rfl⟩

theorem lastFileText_append (l1 l2 : List (String × String)) (f : String) :
    lastFileText (l1 ++ l2) f
      = match lastFileText l2 f with
        | some t => some t
        | none => lastFileText l1 f := by
  induction l1 with
  | nil => cases h : lastFileText l2 f <;> simp [lastFileText, h]
  | cons r rest ih =>
      cases h2 : lastFileText l2 f <;>
        cases h1 : lastFileText rest f <;>
          simp_all [lastFileText, List.cons_append]

/-- One successful batch iteration, fully unfolded. -/
theorem batchRow_ok (env : Env) (st : ServerState) (d : TTSModelRequest)
    (r : String × String) (pl tl : String) (sr : Nat) (a : List Int)
    (hpl : langLookupExc d.prompt_language = Except.ok pl)
    (htl : LANG_DICT d.text_language = some tl)
    (hr : env.infer (mkInferCall d pl tl r.1) = Except.ok (sr, a)) :
    batchRow env d st r
      = ({ st with
            inferCalls := st.inferCalls ++ [mkInferCall d pl tl r.1]
            tempCounter := st.tempCounter + 1
            fs := fsWrite
              (fsErase (fsWrite st.fs (tmpWavPath st.tempCounter)
                  (FileData.wav sr a)) (tmpWavPath st.tempCounter))
              (tmpJoin r.2) (FileData.wav sr a)
            artifacts := st.artifacts ++ [tmpJoin r.2] },
         some (tmpJoin r.2)) := by
  have hTG := tryGenerate_ok env st d r.1 pl tl (sr, a) hpl htl hr
  simp [batchRow, hTG]

/-- The batch loop on all-success input: it returns the row-order list of
final artifact paths, leaves cleanups, logs, weight traces and the engine
alone, creates one artifact and one inference call per row in row order, and
the file at `join(tmpdir, f)` afterwards holds the audio of the last row whose
filename is `f`. -/
theorem batchRows_ok (env : Env) (d : TTSModelRequest) (pl tl : String)
    (hpl : langLookupExc d.prompt_language = Except.ok pl)
    (htl : LANG_DICT d.text_language = some tl) :
    ∀ (rows : List (String × String)) (st : ServerState),
    (∀ r ∈ rows, env.infer (mkInferCall d pl tl r.1)
        = Except.ok (inferOut env (mkInferCall d pl tl r.1))) →
      (batchRows env d st rows).2 = some (rows.map (fun r => tmpJoin r.2))
    ∧ (batchRows env d st rows).1.cleanups = st.cleanups
    ∧ (batchRows env d st rows).1.logs = st.logs
    ∧ (batchRows env d st rows).1.sovitsChanges = st.sovitsChanges
    ∧ (batchRows env d st rows).1.gptChanges = st.gptChanges
    ∧ (batchRows env d st rows).1.engine = st.engine
    ∧ (batchRows env d st rows).1.tempCounter = st.tempCounter + rows.length
    ∧ (batchRows env d st rows).1.artifacts
        = st.artifacts ++ rows.map (fun r => tmpJoin r.2)
    ∧ (batchRows env d st rows).1.inferCalls
        = st.inferCalls ++ rows.map (fun r => mkInferCall d pl tl r.1)
    ∧ ∀ f : String,
        fsLookup (batchRows env d st rows).1.fs (tmpJoin f)
          = match lastFileText rows f with
            | some t =>
                some (FileData.wav (inferOut env (mkInferCall d pl tl t)).1
                  (inferOut env (mkInferCall d pl tl t)).2)
            | none => fsLookup st.fs (tmpJoin f) := by
  intro rows
  induction rows with
  | nil =>
      intro st hok
      simp [batchRows, lastFileText]
  | cons r rest ih =>
      intro st hok
      have hr : env.infer (mkInferCall d pl tl r.1)
          = Except.ok ((inferOut env (mkInferCall d pl tl r.1)).1,
                       (inferOut env (mkInferCall d pl tl r.1)).2) := by
        rw [hok r (by simp)]
      have hBR := batchRow_ok env st d r pl tl
        (inferOut env (mkInferCall d pl tl r.1)).1
        (inferOut env (mkInferCall d pl tl r.1)).2 hpl htl hr
      obtain ⟨ih1, ih2, ih3, ih4, ih5, ih6, ih7, ih8, ih9, ih10⟩ :=
        ih ({ st with
            inferCalls := st.inferCalls ++ [mkInferCall d pl tl r.1]
            tempCounter := st.tempCounter + 1
            fs := fsWrite
              (fsErase (fsWrite st.fs (tmpWavPath st.tempCounter)
                  (FileData.wav (inferOut env (mkInferCall d pl tl r.1)).1
                    (inferOut env (mkInferCall d pl tl r.1)).2))
                (tmpWavPath st.tempCounter))
              (tmpJoin r.2)
              (FileData.wav (inferOut env (mkInferCall d pl tl r.1)).1
                (inferOut env (mkInferCall d pl tl r.1)).2)
            artifacts := st.artifacts ++ [tmpJoin r.2] })
          (fun r' hr' => hok r' (by simp [hr']))
      cases hRec : batchRows env d
          ({ st with
            inferCalls := st.inferCalls ++ [mkInferCall d pl tl r.1]
            tempCounter := st.tempCounter + 1
            fs := fsWrite
              (fsErase (fsWrite st.fs (tmpWavPath st.tempCounter)
                  (FileData.wav (inferOut env (mkInferCall d pl tl r.1)).1
                    (inferOut env (mkInferCall d pl tl r.1)).2))
                (tmpWavPath st.tempCounter))
              (tmpJoin r.2)
              (FileData.wav (inferOut env (mkInferCall d pl tl r.1)).1
                (inferOut env (mkInferCall d pl tl r.1)).2)
            artifacts := st.artifacts ++ [tmpJoin r.2] })
          rest with
      | mk stR res =>
          rw [hRec] at ih1 ih2 ih3 ih4 ih5 ih6 ih7 ih8 ih9 ih10
          simp only at ih1 ih2 ih3 ih4 ih5 ih6 ih7 ih8 ih9 ih10
          subst ih1
          have hmain : batchRows env d st (r :: rest)
              = (stR, some (tmpJoin r.2 :: rest.map (fun x => tmpJoin x.2))) := by
            simp [batchRows, hBR, hRec]
          refine ⟨by simp [hmain], ?_, ?_, ?_, ?_, ?_, ?_, ?_, ?_, ?_⟩ <;>
            simp only [hmain]
          · simpa using ih2
          · simpa using ih3
          · simpa using ih4
          · simpa using ih5
          · simpa using ih6
          · simp only [ih7]
            simp [List.length_cons]
            omega
          · simp only [ih8]
            simp
          · simp only [ih9]
            simp
          · intro f
            have hlk := ih10 f
            rw [hlk]
            cases hL : lastFileText rest f with
            | some t => simp [lastFileText, hL]
            | none =>
                simp only [lastFileText, hL]
                by_cases hf : r.2 = f
                · subst hf
                  simp [fsLookup_fsWrite, fsLookup_fsErase]
                · have h1 : tmpJoin f ≠ tmpJoin r.2 := by
                    simp [tmpJoin]
                    exact fun hh => hf hh.symm
                  have h2 : tmpJoin f ≠ tmpWavPath st.tempCounter :=
                    tmpJoin_ne_tmpWavPath f st.tempCounter
                  simp [fsLookup_fsWrite, fsLookup_fsErase, h1, h2, hf]

/-- The batch loop when the first failing row is reached: rows before it each
produced their artifact and inference call, the failing row's call was made
and logged, and the loop aborts — later rows are never reached and the
cleanups trace is untouched. -/
theorem batchRows_abort (env : Env) (d : TTSModelRequest) (pl tl : String)
    (hpl : langLookupExc d.prompt_language = Except.ok pl)
    (htl : LANG_DICT d.text_language = some tl) :
    ∀ (pre : List (String × String)) (t f : String)
      (post : List (String × String)) (st : ServerState) (msg : String),
    (∀ r ∈ pre, env.infer (mkInferCall d pl tl r.1)
        = Except.ok (inferOut env (mkInferCall d pl tl r.1))) →
    env.infer (mkInferCall d pl tl t) = Except.error msg →
      (batchRows env d st (pre ++ (t, f) :: post)).2 = none
    ∧ (batchRows env d st (pre ++ (t, f) :: post)).1.cleanups = st.cleanups
    ∧ (batchRows env d st (pre ++ (t, f) :: post)).1.logs
        = st.logs ++ ["Error during inference: " ++ msg]
    ∧ (batchRows env d st (pre ++ (t, f) :: post)).1.artifacts
        = st.artifacts ++ pre.map (fun r => tmpJoin r.2)
    ∧ (batchRows env d st (pre ++ (t, f) :: post)).1.inferCalls
        = st.inferCalls ++ pre.map (fun r => mkInferCall d pl tl r.1)
          ++ [mkInferCall d pl tl t] := by
  intro pre
  induction pre with
  | nil =>
      intro t f post st msg hok hfail
      have hTG := tryGenerate_inferError env st d t pl tl msg hpl htl hfail
      simp [batchRows, batchRow, hTG]
  | cons r rest ih =>
      intro t f post st msg hok hfail
      have hr : env.infer (mkInferCall d pl tl r.1)
          = Except.ok ((inferOut env (mkInferCall d pl tl r.1)).1,
                       (inferOut env (mkInferCall d pl tl r.1)).2) := by
        rw [hok r (by simp)]
      have hBR := batchRow_ok env st d r pl tl
        (inferOut env (mkInferCall d pl tl r.1)).1
        (inferOut env (mkInferCall d pl tl r.1)).2 hpl htl hr
      obtain ⟨ih1, ih2, ih3, ih4, ih5⟩ :=
        ih t f post
          ({ st with
            inferCalls := st.inferCalls ++ [mkInferCall d pl tl r.1]
            tempCounter := st.tempCounter + 1
            fs := fsWrite
              (fsErase (fsWrite st.fs (tmpWavPath st.tempCounter)
                  (FileData.wav (inferOut env (mkInferCall d pl tl r.1)).1
                    (inferOut env (mkInferCall d pl tl r.1)).2))
                (tmpWavPath st.tempCounter))
              (tmpJoin r.2)
              (FileData.wav (inferOut env (mkInferCall d pl tl r.1)).1
                (inferOut env (mkInferCall d pl tl r.1)).2)
            artifacts := st.artifacts ++ [tmpJoin r.2] })
          msg (fun r' hr' => hok r' (by simp [hr'])) hfail
      cases hRec : batchRows env d
          ({ st with
            inferCalls := st.inferCalls ++ [mkInferCall d pl tl r.1]
            tempCounter := st.tempCounter + 1
            fs := fsWrite
              (fsErase (fsWrite st.fs (tmpWavPath st.tempCounter)
                  (FileData.wav (inferOut env (mkInferCall d pl tl r.1)).1
                    (inferOut env (mkInferCall d pl tl r.1)).2))
                (tmpWavPath st.tempCounter))
              (tmpJoin r.2)
              (FileData.wav (inferOut env (mkInferCall d pl tl r.1)).1
                (inferOut env (mkInferCall d pl tl r.1)).2)
            artifacts := st.artifacts ++ [tmpJoin r.2] })
          (rest ++ (t, f) :: post) with
      | mk stR res =>
          rw [hRec] at ih1 ih2 ih3 ih4 ih5
          simp only at ih1 ih2 ih3 ih4 ih5
          subst ih1
          have hmain : batchRows env d st (r :: (rest ++ (t, f) :: post))
              = (stR, none) := by
            simp [batchRows, hBR, hRec]
          refine ⟨by simp [List.cons_append, hmain], ?_, ?_, ?_, ?_⟩ <;>
            simp only [List.cons_append, hmain]
          · simpa using ih2
          · simpa using ih3
          · rw [ih4]
            simp
          · rw [ih5]
            simp

/-- `zipf.write` over a list of paths that all hold wav data: the zip entries
are the basenames paired with the on-disk contents, in order. -/
theorem zipEntries_eq_map (fs : Fs) (l : List Path) (g : Path → Nat × List Int)
    (h : ∀ p ∈ l, fsLookup fs p = some (FileData.wav (g p).1 (g p).2)) :
    zipEntries fs l
      = some (l.map (fun p => ⟨basename p, (g p).1, (g p).2⟩)) := by
  induction l with
  | nil => simp [zipEntries]
  | cons p rest ih =>
      have hp := h p (by simp)
      have hrest := ih (fun q hq => h q (by simp [hq]))
      simp [zipEntries, hp, hrest]

theorem rowEntry_arcname (env : Env) (d : TTSModelRequest) (pl tl : String)
    (rows : List (String × String)) (r : String × String) :
    (rowEntry env d pl tl rows r).arcname = r.2 := by
  simp only [rowEntry]
  split <;> rfl

/-- The last row carrying filename `r.2` is `r` itself when no later row
shares the filename. -/
theorem lastFileText_of_unique (l1 : List (String × String))
    (r : String × String) (l2 : List (String × String))
    (hnot : r.2 ∉ l2.map Prod.snd) :
    lastFileText (l1 ++ r :: l2) r.2 = some r.1 := by
  rw [lastFileText_append]
  have h2 : lastFileText l2 r.2 = none := (lastFileText_eq_none _ _).mpr hnot
  simp [lastFileText, h2]

/-- Under distinct filenames, each row is the last row with its filename. -/
theorem lastFileText_get_nodup (rows : List (String × String))
    (hnd : (rows.map Prod.snd).Nodup) (i : Nat) (hi : i < rows.length) :
    lastFileText rows (rows.get ⟨i, hi⟩).2 = some (rows.get ⟨i, hi⟩).1 := by
  have hdecomp : rows = rows.take i ++ rows.get ⟨i, hi⟩ :: rows.drop (i + 1) := by
    conv_lhs => rw [← List.take_append_drop i rows]
    rw [List.drop_eq_getElem_cons hi]
    rfl
  have hnot : (rows.get ⟨i, hi⟩).2 ∉ (rows.drop (i + 1)).map Prod.snd := by
    intro hmem
    have hsplit : (rows.map Prod.snd).Nodup := hnd
    rw [hdecomp] at hsplit
    rw [List.map_append, List.map_cons] at hsplit
    have := (List.nodup_append.mp hsplit).2.1
    exact (List.nodup_cons.mp this).1 hmem
  obtain ⟨a, ha⟩ : ∃ a, rows.get ⟨i, hi⟩ = a := ⟨_, rfl⟩
  rw [ha] at hdecomp hnot ⊢
  rw [hdecomp]
  exact lastFileText_of_unique _ _ _ hnot

/-- The batch handler on all-success input: artifacts and cleanups in row
order (plus the zip cleanup exactly when `zip_filename` is supplied), the
result value by `zip_filename` case, and the zip artifact's entries — one per
row, named by the row's filename, holding the audio of the last row with that
filename. -/
theorem batch_predict_ok (env : Env) (data : TTSModelRequest)
    (texts filenames : List String) (st : ServerState) (d : TTSModelRequest)
    (pl tl : String)
    (hres : resolveCharacter env data = Except.ok d)
    (hpl : langLookupExc d.prompt_language = Except.ok pl)
    (htl : LANG_DICT d.text_language = some tl)
    (hok : ∀ r ∈ texts.zip filenames, env.infer (mkInferCall d pl tl r.1)
        = Except.ok (inferOut env (mkInferCall d pl tl r.1))) :
      (batch_predict env data texts filenames st).2.artifacts
        = st.artifacts ++ (texts.zip filenames).map (fun r => tmpJoin r.2)
    ∧ (batch_predict env data texts filenames st).2.cleanups
        = st.cleanups ++ (texts.zip filenames).map (fun r => tmpJoin r.2)
          ++ (match data.zip_filename with
              | some z => [tmpJoin z]
              | none => [])
    ∧ (batch_predict env data texts filenames st).1
        = (match data.zip_filename with
           | some z => HandlerResult.fileResponse (tmpJoin z) "application/zip"
           | none => HandlerResult.pyError (PyErr.unboundLocal "final_zip_path"))
    ∧ fsLookup (batch_predict env data texts filenames st).2.fs
        (match data.zip_filename with
         | some z => tmpJoin z
         | none => tmpZipPath (st.tempCounter + (texts.zip filenames).length))
        = some (FileData.zipData
            ((texts.zip filenames).map
              (rowEntry env d pl tl (texts.zip filenames)))) := by
  obtain ⟨-, -, -, hwfs, hwtc, hwcl, -, -, hwar⟩ :=
    swapWeights_spec st d.sovits_weights d.gpt_weights
  obtain ⟨hB1, hB2, hB3, hB4, hB5, hB6, hB7, hB8, hB9, hB10⟩ :=
    batchRows_ok env d pl tl hpl htl (texts.zip filenames)
      (swapWeights st d.sovits_weights d.gpt_weights) hok
  cases hRows : batchRows env d (swapWeights st d.sovits_weights d.gpt_weights)
      (texts.zip filenames) with
  | mk stL res =>
      rw [hRows] at hB1 hB2 hB7 hB8 hB10
      simp only at hB1 hB2 hB7 hB8 hB10
      subst hB1
      have hlk : ∀ p ∈ (texts.zip filenames).map (fun r => tmpJoin r.2),
          fsLookup stL.fs p
            = some (FileData.wav
                (lastAudioAt env d pl tl (texts.zip filenames) p).1
                (lastAudioAt env d pl tl (texts.zip filenames) p).2) := by
        intro p hp
        obtain ⟨r, hr, rfl⟩ := List.mem_map.mp hp
        obtain ⟨t, ht⟩ := lastFileText_mem _ r hr
        rw [hB10 r.2, ht]
        simp [lastAudioAt, basename_tmpJoin, ht]
      have hEnt : zipEntries stL.fs
            ((texts.zip filenames).map (fun r => tmpJoin r.2))
          = some ((texts.zip filenames).map
              (rowEntry env d pl tl (texts.zip filenames))) := by
        rw [zipEntries_eq_map stL.fs _
          (lastAudioAt env d pl tl (texts.zip filenames)) hlk]
        congr 1
        rw [List.map_map]
        refine List.map_congr_left ?_
        intro r hr
        obtain ⟨t, ht⟩ := lastFileText_mem _ r hr
        simp [Function.comp, lastAudioAt, rowEntry, basename_tmpJoin, ht]
      have htc : stL.tempCounter
          = st.tempCounter + (texts.zip filenames).length := by
        rw [hB7, hwtc]
      cases hzf : data.zip_filename with
      | none =>
          have hfin : batch_predict env data texts filenames st
              = (HandlerResult.pyError (PyErr.unboundLocal "final_zip_path"),
                 { stL with
                    tempCounter := stL.tempCounter + 1
                    fs := fsWrite stL.fs (tmpZipPath stL.tempCounter)
                      (FileData.zipData ((texts.zip filenames).map
                        (rowEntry env d pl tl (texts.zip filenames))))
                    cleanups := stL.cleanups
                      ++ (texts.zip filenames).map (fun r => tmpJoin r.2) }) := by
            simp [batch_predict, hres, hRows, hEnt, hzf]
          rw [hfin]
          refine ⟨by simpa using hB8.trans (by rw [hwar]), ?_, by simp, ?_⟩
          · simp [hB2, hwcl]
          · simp only [htc]
            simp [fsLookup_fsWrite]
      | some z =>
          have hlkzip : fsLookup
              (fsWrite stL.fs (tmpZipPath stL.tempCounter)
                (FileData.zipData ((texts.zip filenames).map
                  (rowEntry env d pl tl (texts.zip filenames)))))
              (tmpZipPath stL.tempCounter)
              = some (FileData.zipData ((texts.zip filenames).map
                  (rowEntry env d pl tl (texts.zip filenames)))) := by
            simp [fsLookup_fsWrite]
          have hfin : batch_predict env data texts filenames st
              = (HandlerResult.fileResponse (tmpJoin z) "application/zip",
                 { stL with
                    tempCounter := stL.tempCounter + 1
                    fs := fsWrite
                      (fsErase
                        (fsWrite stL.fs (tmpZipPath stL.tempCounter)
                          (FileData.zipData ((texts.zip filenames).map
                            (rowEntry env d pl tl (texts.zip filenames)))))
                        (tmpZipPath stL.tempCounter))
                      (tmpJoin z)
                      (FileData.zipData ((texts.zip filenames).map
                        (rowEntry env d pl tl (texts.zip filenames))))
                    cleanups := stL.cleanups
                      ++ (texts.zip filenames).map (fun r => tmpJoin r.2)
                      ++ [tmpJoin z] }) := by
            simp [batch_predict, hres, hRows, hEnt, hzf, fsRename, hlkzip]
          rw [hfin]
          refine ⟨by simpa using hB8.trans (by rw [hwar]), ?_, by simp, ?_⟩
          · simp [hB2, hwcl]
          · simp [fsLookup_fsWrite]

theorem zip_map_fst_snd_eq {α β : Type} (l : List (α × β)) :
    (l.map Prod.fst).zip (l.map Prod.snd) = l := by
  induction l with
  | nil => rfl
  | cons r rest ih => simp [List.zip_cons_cons, ih]

/-- C3 (amended): when the rows split as `pre ++ (t, f) :: post` with every
row of `pre` succeeding and the row `(t, f)` the first to fail, the batch
aborts with the opaque synthesis error: artifacts and inference calls exist
exactly for `pre` plus the failing call, nothing for `post` — but no cleanup
at all is scheduled (the cleanup loop is only reached on full success), so
the `pre` artifacts are left behind. -/
theorem batch_abort_on_failure_no_cleanup (env : Env) (data : TTSModelRequest)
    (texts filenames : List String) (st : ServerState) (d : TTSModelRequest)
    (pl tl : String) (pre : List (String × String)) (t f : String)
    (post : List (String × String)) (msg : String)
    (hres : resolveCharacter env data = Except.ok d)
    (hpl : langLookupExc d.prompt_language = Except.ok pl)
    (htl : LANG_DICT d.text_language = some tl)
    (hzip : texts.zip filenames = pre ++ (t, f) :: post)
    (hok : ∀ r ∈ pre, env.infer (mkInferCall d pl tl r.1)
        = Except.ok (inferOut env (mkInferCall d pl tl r.1)))
    (hfail : env.infer (mkInferCall d pl tl t) = Except.error msg) :
      (batch_predict env data texts filenames st).1
        = HandlerResult.httpError 500 "Error during inference"
    ∧ (batch_predict env data texts filenames st).2.cleanups = st.cleanups
    ∧ (batch_predict env data texts filenames st).2.artifacts
        = st.artifacts ++ pre.map (fun r => tmpJoin r.2)
    ∧ (batch_predict env data texts filenames st).2.inferCalls
        = st.inferCalls ++ pre.map (fun r => mkInferCall d pl tl r.1)
          ++ [mkInferCall d pl tl t] := by
  obtain ⟨-, -, -, -, -, hwcl, -, hwic, hwar⟩ :=
    swapWeights_spec st d.sovits_weights d.gpt_weights
  obtain ⟨hA1, hA2, hA3, hA4, hA5⟩ :=
    batchRows_abort env d pl tl hpl htl pre t f post
      (swapWeights st d.sovits_weights d.gpt_weights) msg hok hfail
  cases hRows : batchRows env d (swapWeights st d.sovits_weights d.gpt_weights)
      (pre ++ (t, f) :: post) with
  | mk stL res =>
      rw [hRows] at hA1 hA2 hA3 hA4 hA5
      simp only at hA1 hA2 hA3 hA4 hA5
      subst hA1
      have hfin : batch_predict env data texts filenames st
          = (HandlerResult.httpError 500 "Error during inference", stL) := by
        simp [batch_predict, hres, hzip, hRows]
      rw [hfin]
      refine ⟨rfl, ?_, ?_, ?_⟩
      · simp [hA2, hwcl]
      · simp [hA4, hwar]
      · simp [hA5, hwic]

/-- C3 (witness): a concrete 3-row batch whose second row fails; only row 1's
artifact and the first two inference calls exist, and no cleanup is
scheduled. -/
theorem batch_abort_on_failure_no_cleanup_witness :
    (batch_predict envA dataBase ["t1", "t2", "t3"] ["f1", "f2", "f3"] st0).1
      = HandlerResult.httpError 500 "Error during inference"
  ∧ (batch_predict envA dataBase ["t1", "t2", "t3"] ["f1", "f2", "f3"]
      st0).2.cleanups = st0.cleanups
  ∧ (batch_predict envA dataBase ["t1", "t2", "t3"] ["f1", "f2", "f3"]
      st0).2.artifacts
      = st0.artifacts ++ [("t1", "f1")].map (fun r => tmpJoin r.2)
  ∧ (batch_predict envA dataBase ["t1", "t2", "t3"] ["f1", "f2", "f3"]
      st0).2.inferCalls
      = st0.inferCalls
        ++ [("t1", "f1")].map (fun r => mkInferCall dataBase "all_zh" "all_zh" r.1)
        ++ [mkInferCall dataBase "all_zh" "all_zh" "t2"] :=
  batch_abort_on_failure_no_cleanup envA dataBase ["t1", "t2", "t3"]
    ["f1", "f2", "f3"] st0 dataBase "all_zh" "all_zh" [("t1", "f1")] "t2" "f2"
    [("t3", "f3")] "boom" (by decide) (by decide) (by decide) (by decide)
    (by decide) (by decide)

/-- C5: a batch over N rows that all succeed produces exactly N wav
artifacts, named by the filename column index-for-index, plus one zip
artifact holding N entries whose archive names are the filenames in row
order; when the filenames are distinct, entry `i` holds exactly row `i`'s
audio. -/
theorem batch_success_n_artifacts_and_zip (env : Env)
    (data : TTSModelRequest) (texts filenames : List String)
    (st : ServerState) (d : TTSModelRequest) (pl tl : String)
    (hres : resolveCharacter env data = Except.ok d)
    (hpl : langLookupExc d.prompt_language = Except.ok pl)
    (htl : LANG_DICT d.text_language = some tl)
    (hlen : texts.length = filenames.length)
    (hok : ∀ r ∈ texts.zip filenames, env.infer (mkInferCall d pl tl r.1)
        = Except.ok (inferOut env (mkInferCall d pl tl r.1))) :
      (batch_predict env data texts filenames st).2.artifacts
        = st.artifacts ++ filenames.map tmpJoin
    ∧ fsLookup (batch_predict env data texts filenames st).2.fs
        (match data.zip_filename with
         | some z => tmpJoin z
         | none => tmpZipPath (st.tempCounter + filenames.length))
        = some (FileData.zipData (batchZipEntries env d pl tl texts filenames))
    ∧ (batchZipEntries env d pl tl texts filenames).length = filenames.length
    ∧ (batchZipEntries env d pl tl texts filenames).map (fun e => e.arcname)
        = filenames
    ∧ (filenames.Nodup →
        ∀ (i : Nat) (h1 : i < texts.length) (h2 : i < filenames.length)
          (h3 : i < (batchZipEntries env d pl tl texts filenames).length),
          (batchZipEntries env d pl tl texts filenames).get ⟨i, h3⟩
            = ⟨filenames.get ⟨i, h2⟩,
               (inferOut env (mkInferCall d pl tl (texts.get ⟨i, h1⟩))).1,
               (inferOut env (mkInferCall d pl tl (texts.get ⟨i, h1⟩))).2⟩) := by
  obtain ⟨hP1, hP2, hP3, hP4⟩ :=
    batch_predict_ok env data texts filenames st d pl tl hres hpl htl hok
  have hsnd : (texts.zip filenames).map Prod.snd = filenames :=
    List.map_snd_zip texts filenames hlen.ge
  have hrlen : (texts.zip filenames).length = filenames.length := by
    simp [List.length_zip, hlen]
  have hmapJ : (texts.zip filenames).map (fun r => tmpJoin r.2)
      = filenames.map tmpJoin := by
    conv_rhs => rw [← hsnd, List.map_map]
    rfl
  refine ⟨?_, ?_, ?_, ?_, ?_⟩
  · rw [hP1, hmapJ]
  · rw [← hrlen]
    exact hP4
  · simp [batchZipEntries, hrlen]
  · calc (batchZipEntries env d pl tl texts filenames).map (fun e => e.arcname)
        = (texts.zip filenames).map
            (fun r => (rowEntry env d pl tl (texts.zip filenames) r).arcname) := by
          simp [batchZipEntries, List.map_map, Function.comp]
      _ = (texts.zip filenames).map Prod.snd :=
          List.map_congr_left
            (fun r _ => rowEntry_arcname env d pl tl (texts.zip filenames) r)
      _ = filenames := hsnd
  · intro hnd i h1 h2 h3
    have hi : i < (texts.zip filenames).length := by
      rw [hrlen]
      exact h2
    have hnd2 : ((texts.zip filenames).map Prod.snd).Nodup := by
      rw [hsnd]
      exact hnd
    have hlast := lastFileText_get_nodup (texts.zip filenames) hnd2 i hi
    have hget : (texts.zip filenames).get ⟨i, hi⟩
        = (texts.get ⟨i, h1⟩, filenames.get ⟨i, h2⟩) := by
      simp [List.getElem_zip]
    have hent : (batchZipEntries env d pl tl texts filenames).get ⟨i, h3⟩
        = rowEntry env d pl tl (texts.zip filenames)
            ((texts.zip filenames).get ⟨i, hi⟩) := by
      simp [batchZipEntries]
    rw [hget] at hlast
    rw [hent, hget]
    simp only [rowEntry, hlast]

/-- C5 (witness): a 2-row batch with distinct filenames. -/
theorem batch_success_n_artifacts_and_zip_witness :
    (batch_predict envA dataBase ["ta", "tb"] ["fa", "fb"] st0).2.artifacts
      = st0.artifacts ++ ["fa", "fb"].map tmpJoin
  ∧ fsLookup (batch_predict envA dataBase ["ta", "tb"] ["fa", "fb"] st0).2.fs
      (match dataBase.zip_filename with
       | some z => tmpJoin z
       | none => tmpZipPath (st0.tempCounter + ["fa", "fb"].length))
      = some (FileData.zipData
          (batchZipEntries envA dataBase "all_zh" "all_zh" ["ta", "tb"] ["fa", "fb"]))
  ∧ (batchZipEntries envA dataBase "all_zh" "all_zh" ["ta", "tb"] ["fa", "fb"]).length
      = ["fa", "fb"].length
  ∧ (batchZipEntries envA dataBase "all_zh" "all_zh" ["ta", "tb"] ["fa", "fb"]).map
      (fun e => e.arcname) = ["fa", "fb"]
  ∧ (["fa", "fb"].Nodup →
      ∀ (i : Nat) (h1 : i < ["ta", "tb"].length) (h2 : i < ["fa", "fb"].length)
        (h3 : i < (batchZipEntries envA dataBase "all_zh" "all_zh"
          ["ta", "tb"] ["fa", "fb"]).length),
        (batchZipEntries envA dataBase "all_zh" "all_zh"
          ["ta", "tb"] ["fa", "fb"]).get ⟨i, h3⟩
          = ⟨["fa", "fb"].get ⟨i, h2⟩,
             (inferOut envA (mkInferCall dataBase "all_zh" "all_zh"
               (["ta", "tb"].get ⟨i, h1⟩))).1,
             (inferOut envA (mkInferCall dataBase "all_zh" "all_zh"
               (["ta", "tb"].get ⟨i, h1⟩))).2⟩) :=
  batch_success_n_artifacts_and_zip envA dataBase ["ta", "tb"] ["fa", "fb"]
    st0 dataBase "all_zh" "all_zh" (by decide) (by decide) (by decide)
    (by decide) (by decide)

/-- With exactly two rows named `f` and none after the second, the second of
them is the last row named `f`. -/
theorem lastFileText_dup_shape (A B C : List (String × String))
    (t1 t2 f : String) (hnotC : f ∉ C.map Prod.snd) :
    lastFileText (A ++ (t1, f) :: B ++ (t2, f) :: C) f = some t2 := by
  have h : A ++ (t1, f) :: B ++ (t2, f) :: C
      = (A ++ (t1, f) :: B) ++ (t2, f) :: C := by
    simp [List.append_assoc]
  rw [h]
  exact lastFileText_of_unique (A ++ (t1, f) :: B) (t2, f) C hnotC

/-- C10: in an all-success batch whose rows `|A|` and `|A|+|B|+1` both name
the output file `f` (and no other row does), the later row's rename replaces
the earlier artifact: the artifact list holds `join(tmpdir, f)` twice, the
zip holds two entries named `f` both with the later row's audio, and cleanup
of that single path is scheduled twice. -/
theorem duplicate_filename_last_writer_wins (env : Env)
    (data : TTSModelRequest) (st : ServerState) (d : TTSModelRequest)
    (pl tl : String) (A B C : List (String × String)) (t1 t2 f z : String)
    (hres : resolveCharacter env data = Except.ok d)
    (hpl : langLookupExc d.prompt_language = Except.ok pl)
    (htl : LANG_DICT d.text_language = some tl)
    (hzf : data.zip_filename = some z)
    (hzf2 : z ≠ f)
    (hok : ∀ r ∈ A ++ (t1, f) :: B ++ (t2, f) :: C,
        env.infer (mkInferCall d pl tl r.1)
          = Except.ok (inferOut env (mkInferCall d pl tl r.1)))
    (hnot : f ∉ (A ++ B ++ C).map Prod.snd) :
      (batch_predict env data
          ((A ++ (t1, f) :: B ++ (t2, f) :: C).map Prod.fst)
          ((A ++ (t1, f) :: B ++ (t2, f) :: C).map Prod.snd) st).2.artifacts
        = st.artifacts
          ++ (A.map (fun r => tmpJoin r.2)
              ++ tmpJoin f :: (B.map (fun r => tmpJoin r.2)
                ++ tmpJoin f :: C.map (fun r => tmpJoin r.2)))
    ∧ fsLookup (batch_predict env data
          ((A ++ (t1, f) :: B ++ (t2, f) :: C).map Prod.fst)
          ((A ++ (t1, f) :: B ++ (t2, f) :: C).map Prod.snd) st).2.fs
        (tmpJoin z)
        = some (FileData.zipData
            (A.map (rowEntry env d pl tl (A ++ (t1, f) :: B ++ (t2, f) :: C))
              ++ ⟨f, (inferOut env (mkInferCall d pl tl t2)).1,
                    (inferOut env (mkInferCall d pl tl t2)).2⟩
                :: (B.map (rowEntry env d pl tl (A ++ (t1, f) :: B ++ (t2, f) :: C))
                  ++ ⟨f, (inferOut env (mkInferCall d pl tl t2)).1,
                        (inferOut env (mkInferCall d pl tl t2)).2⟩
                    :: C.map (rowEntry env d pl tl (A ++ (t1, f) :: B ++ (t2, f) :: C)))))
    ∧ (batch_predict env data
          ((A ++ (t1, f) :: B ++ (t2, f) :: C).map Prod.fst)
          ((A ++ (t1, f) :: B ++ (t2, f) :: C).map Prod.snd) st).2.cleanups
        = st.cleanups
          ++ (A.map (fun r => tmpJoin r.2)
              ++ tmpJoin f :: (B.map (fun r => tmpJoin r.2)
                ++ tmpJoin f :: C.map (fun r => tmpJoin r.2)))
          ++ [tmpJoin z]
    ∧ (batch_predict env data
          ((A ++ (t1, f) :: B ++ (t2, f) :: C).map Prod.fst)
          ((A ++ (t1, f) :: B ++ (t2, f) :: C).map Prod.snd) st).2.cleanups.count
        (tmpJoin f)
        = st.cleanups.count (tmpJoin f) + 2 := by
  have hzip : ((A ++ (t1, f) :: B ++ (t2, f) :: C).map Prod.fst).zip
      ((A ++ (t1, f) :: B ++ (t2, f) :: C).map Prod.snd)
      = A ++ (t1, f) :: B ++ (t2, f) :: C :=
    zip_map_fst_snd_eq _
  obtain ⟨hP1, hP2, hP3, hP4⟩ :=
    batch_predict_ok env data
      ((A ++ (t1, f) :: B ++ (t2, f) :: C).map Prod.fst)
      ((A ++ (t1, f) :: B ++ (t2, f) :: C).map Prod.snd) st d pl tl
      hres hpl htl (by rw [hzip]; exact hok)
  rw [hzip] at hP1 hP2 hP4
  rw [hzf] at hP2 hP4
  simp only at hP2 hP4
  have hnA : f ∉ A.map Prod.snd := fun h => hnot (by simp [h])
  have hnB : f ∉ B.map Prod.snd := fun h => hnot (by simp [h])
  have hnC : f ∉ C.map Prod.snd := fun h => hnot (by simp [h])
  have hlast : lastFileText (A ++ ((t1, f) :: (B ++ ((t2, f) :: C)))) f
      = some t2 := by
    have h0 := lastFileText_dup_shape A B C t1 t2 f hnC
    simpa [List.append_assoc, List.cons_append] using h0
  have hre1 : rowEntry env d pl tl (A ++ ((t1, f) :: (B ++ ((t2, f) :: C))))
      (t1, f)
      = ⟨f, (inferOut env (mkInferCall d pl tl t2)).1,
           (inferOut env (mkInferCall d pl tl t2)).2⟩ := by
    simp [rowEntry, hlast]
  have hre2 : rowEntry env d pl tl (A ++ ((t1, f) :: (B ++ ((t2, f) :: C))))
      (t2, f)
      = ⟨f, (inferOut env (mkInferCall d pl tl t2)).1,
           (inferOut env (mkInferCall d pl tl t2)).2⟩ := by
    simp [rowEntry, hlast]
  have hart : (batch_predict env data
      ((A ++ (t1, f) :: B ++ (t2, f) :: C).map Prod.fst)
      ((A ++ (t1, f) :: B ++ (t2, f) :: C).map Prod.snd) st).2.artifacts
      = st.artifacts
        ++ (A.map (fun r => tmpJoin r.2)
            ++ tmpJoin f :: (B.map (fun r => tmpJoin r.2)
              ++ tmpJoin f :: C.map (fun r => tmpJoin r.2))) := by
    rw [hP1]
    simp [List.map_append]
  have hcl : (batch_predict env data
      ((A ++ (t1, f) :: B ++ (t2, f) :: C).map Prod.fst)
      ((A ++ (t1, f) :: B ++ (t2, f) :: C).map Prod.snd) st).2.cleanups
      = st.cleanups
        ++ (A.map (fun r => tmpJoin r.2)
            ++ tmpJoin f :: (B.map (fun r => tmpJoin r.2)
              ++ tmpJoin f :: C.map (fun r => tmpJoin r.2)))
        ++ [tmpJoin z] := by
    rw [hP2]
    simp [List.map_append]
  refine ⟨hart, ?_, hcl, ?_⟩
  · rw [hP4]
    simp only [List.append_assoc, List.cons_append, List.map_append,
      List.map_cons, hre1, hre2]
  · rw [hcl]
    have hmem : ∀ (L : List (String × String)), f ∉ L.map Prod.snd →
        (L.map (fun r => tmpJoin r.2)).count (tmpJoin f) = 0 := by
      intro L hL
      refine List.count_eq_zero.mpr ?_
      intro hm
      obtain ⟨r, hr, he⟩ := List.mem_map.mp hm
      exact hL (List.mem_map.mpr ⟨r, hr, tmpJoin_inj.mp he⟩)
    have hz0 : ([tmpJoin z] : List Path).count (tmpJoin f) = 0 := by
      refine List.count_eq_zero.mpr ?_
      intro hm
      rw [List.mem_singleton] at hm
      exact hzf2 (tmpJoin_inj.mp hm).symm
    simp [List.count_append, List.count_cons_self, hmem A hnA, hmem B hnB,
      hmem C hnC, hz0]

/-- C10 (witness): a concrete 4-row batch whose rows 2 and 4 both write
`dup`. -/
theorem duplicate_filename_last_writer_wins_witness :
    (batch_predict envA { dataBase with zip_filename := some "out.zip" }
        (([("x", "fx")] ++ ("d1", "dup") :: [] ++ ("d3", "dup")
          :: [("y", "fy")]).map Prod.fst)
        (([("x", "fx")] ++ ("d1", "dup") :: [] ++ ("d3", "dup")
          :: [("y", "fy")]).map Prod.snd) st0).2.artifacts
      = st0.artifacts
        ++ ([("x", "fx")].map (fun r => tmpJoin r.2)
            ++ tmpJoin "dup" :: (([] : List (String × String)).map
                (fun r => tmpJoin r.2)
              ++ tmpJoin "dup" :: [("y", "fy")].map (fun r => tmpJoin r.2)))
  ∧ fsLookup (batch_predict envA { dataBase with zip_filename := some "out.zip" }
        (([("x", "fx")] ++ ("d1", "dup") :: [] ++ ("d3", "dup")
          :: [("y", "fy")]).map Prod.fst)
        (([("x", "fx")] ++ ("d1", "dup") :: [] ++ ("d3", "dup")
          :: [("y", "fy")]).map Prod.snd) st0).2.fs
      (tmpJoin "out.zip")
      = some (FileData.zipData
          ([("x", "fx")].map (rowEntry envA { dataBase with zip_filename := some "out.zip" }
              "all_zh" "all_zh"
              ([("x", "fx")] ++ ("d1", "dup") :: [] ++ ("d3", "dup") :: [("y", "fy")]))
            ++ ⟨"dup",
                  (inferOut envA (mkInferCall
                    { dataBase with zip_filename := some "out.zip" }
                    "all_zh" "all_zh" "d3")).1,
                  (inferOut envA (mkInferCall
                    { dataBase with zip_filename := some "out.zip" }
                    "all_zh" "all_zh" "d3")).2⟩
              :: (([] : List (String × String)).map
                    (rowEntry envA { dataBase with zip_filename := some "out.zip" }
                      "all_zh" "all_zh"
                      ([("x", "fx")] ++ ("d1", "dup") :: [] ++ ("d3", "dup") :: [("y", "fy")]))
                ++ ⟨"dup",
                      (inferOut envA (mkInferCall
                        { dataBase with zip_filename := some "out.zip" }
                        "all_zh" "all_zh" "d3")).1,
                      (inferOut envA (mkInferCall
                        { dataBase with zip_filename := some "out.zip" }
                        "all_zh" "all_zh" "d3")).2⟩
                  :: [("y", "fy")].map
                    (rowEntry envA { dataBase with zip_filename := some "out.zip" }
                      "all_zh" "all_zh"
                      ([("x", "fx")] ++ ("d1", "dup") :: [] ++ ("d3", "dup") :: [("y", "fy")])))))
  ∧ (batch_predict envA { dataBase with zip_filename := some "out.zip" }
        (([("x", "fx")] ++ ("d1", "dup") :: [] ++ ("d3", "dup")
          :: [("y", "fy")]).map Prod.fst)
        (([("x", "fx")] ++ ("d1", "dup") :: [] ++ ("d3", "dup")
          :: [("y", "fy")]).map Prod.snd) st0).2.cleanups
      = st0.cleanups
        ++ ([("x", "fx")].map (fun r => tmpJoin r.2)
            ++ tmpJoin "dup" :: (([] : List (String × String)).map
                (fun r => tmpJoin r.2)
              ++ tmpJoin "dup" :: [("y", "fy")].map (fun r => tmpJoin r.2)))
        ++ [tmpJoin "out.zip"]
  ∧ (batch_predict envA { dataBase with zip_filename := some "out.zip" }
        (([("x", "fx")] ++ ("d1", "dup") :: [] ++ ("d3", "dup")
          :: [("y", "fy")]).map Prod.fst)
        (([("x", "fx")] ++ ("d1", "dup") :: [] ++ ("d3", "dup")
          :: [("y", "fy")]).map Prod.snd) st0).2.cleanups.count
      (tmpJoin "dup")
      = st0.cleanups.count (tmpJoin "dup") + 2 :=
  duplicate_filename_last_writer_wins envA
    { dataBase with zip_filename := some "out.zip" } st0
    { dataBase with zip_filename := some "out.zip" } "all_zh" "all_zh"
    [("x", "fx")] [] [("y", "fy")] "d1" "d3" "dup" "out.zip"
    (by decide) (by decide) (by decide) rfl (by decide) (by decide) (by decide)

/-- C4: both handlers call the weight-loading operations exactly when the
resolved requested path differs from the engine's currently loaded one: the
change-call traces grow by the requested path when it differs and stay empty
when it matches — for `predict` on the resolved request, and for
`get_tts_wav` on the catalog-resolved model paths. -/
theorem weight_swap_iff_path_differs (env : Env) (st st2 : ServerState)
    (data d : TTSModelRequest)
    (ssp smn gsp gmn ra ptxt plng ttxt tlng hcut : String)
    (tk : Int) (tp tmp : Rat) (rf : Bool)
    (stab gtab : String → Option String) (sm gm : String)
    (hres : resolveCharacter env data = Except.ok d)
    (hs1 : env.sovits_models_info ssp = some stab)
    (hs2 : stab smn = some sm)
    (hg1 : env.gpt_models_info gsp = some gtab)
    (hg2 : gtab gmn = some gm) :
    ((predict env data st).2.sovitsChanges
        = st.sovitsChanges
          ++ (if st.engine.sovits_model = d.sovits_weights then []
              else [d.sovits_weights])
     ∧ (predict env data st).2.gptChanges
        = st.gptChanges
          ++ (if st.engine.gpt_model = d.gpt_weights then []
              else [d.gpt_weights]))
  ∧ ((get_tts_wav env st2 ssp smn gsp gmn ra ptxt plng ttxt tlng hcut
        tk tp tmp rf).1.sovitsChanges
        = st2.sovitsChanges
          ++ (if st2.engine.sovits_model = some sm then [] else [some sm])
     ∧ (get_tts_wav env st2 ssp smn gsp gmn ra ptxt plng ttxt tlng hcut
        tk tp tmp rf).1.gptChanges
        = st2.gptChanges
          ++ (if st2.engine.gpt_model = some gm then [] else [some gm])) := by
  obtain ⟨hsc, hgc, -, -, -, -, -, -, -⟩ :=
    swapWeights_spec st d.sovits_weights d.gpt_weights
  obtain ⟨hsc2, hgc2, -, -, -, -, -, -, -⟩ :=
    swapWeights_spec st2 (some sm) (some gm)
  obtain ⟨hp1, hp2⟩ := predict_changes env data st d hres
  obtain ⟨hw1, hw2⟩ := get_tts_wav_changes env st2 ssp smn gsp gmn ra ptxt
    plng ttxt tlng hcut tk tp tmp rf stab gtab sm gm hs1 hs2 hg1 hg2
  exact ⟨⟨hp1.trans hsc, hp2.trans hgc⟩, ⟨hw1.trans hsc2, hw2.trans hgc2⟩⟩

/-- C4 (witness): `st0` already holds `dataBase`'s weights, so `predict`
performs no reload; the catalog paths differ, so `get_tts_wav` reloads both. -/
theorem weight_swap_iff_path_differs_witness :
    ((predict envA dataBase st0).2.sovitsChanges
        = st0.sovitsChanges
          ++ (if st0.engine.sovits_model = dataBase.sovits_weights then []
              else [dataBase.sovits_weights])
     ∧ (predict envA dataBase st0).2.gptChanges
        = st0.gptChanges
          ++ (if st0.engine.gpt_model = dataBase.gpt_weights then []
              else [dataBase.gpt_weights]))
  ∧ ((get_tts_wav envA st0 "spk" "m1" "spk" "m1" "r.wav" "p" "中文" "t" "中文"
        "不切" 5 (mkRat 7 10) (mkRat 7 10) false).1.sovitsChanges
        = st0.sovitsChanges
          ++ (if st0.engine.sovits_model = some "sovits/spk/m1.pth" then []
              else [some "sovits/spk/m1.pth"])
     ∧ (get_tts_wav envA st0 "spk" "m1" "spk" "m1" "r.wav" "p" "中文" "t" "中文"
        "不切" 5 (mkRat 7 10) (mkRat 7 10) false).1.gptChanges
        = st0.gptChanges
          ++ (if st0.engine.gpt_model = some "gpt/spk/m1.ckpt" then []
              else [some "gpt/spk/m1.ckpt"])) :=
  weight_swap_iff_path_differs envA st0 st0 dataBase dataBase "spk" "m1"
    "spk" "m1" "r.wav" "p" "中文" "t" "中文" "不切" 5 (mkRat 7 10) (mkRat 7 10)
    false (fun m => if m = "m1" then some "sovits/spk/m1.pth" else none)
    (fun m => if m = "m1" then some "gpt/spk/m1.ckpt" else none)
    "sovits/spk/m1.pth" "gpt/spk/m1.ckpt"
    (by decide) rfl (by decide) rfl (by decide)

/-- C1 (counterexample): `remove_temp_file` on a path that no longer exists
raises `FileNotFoundError` rather than completing silently: the second of two
successive removals of the same file raises. -/
theorem remove_missing_path_raises_cex :
    remove_temp_file [] (tmpJoin "a.wav")
      = Except.error (PyErr.fileNotFound (tmpJoin "a.wav"))
  ∧ remove_temp_file [(tmpJoin "a.wav", FileData.wav 1 [0])] (tmpJoin "a.wav")
      = Except.ok [] := by
  decide

/-- C1 (amended): removal is not idempotent.  `remove_temp_file` deletes an
existing file, but on a path that does not exist it raises
`FileNotFoundError`; in particular calling it twice in succession on the same
file raises on the second call. -/
theorem remove_temp_file_raises_on_missing :
    (∀ (fs : Fs) (p : Path), fsLookup fs p = none →
        remove_temp_file fs p = Except.error (PyErr.fileNotFound p))
  ∧ ∀ (fs : Fs) (p : Path) (sr : Nat) (a : List Int),
        fsLookup fs p = some (FileData.wav sr a) →
        remove_temp_file fs p = Except.ok (fsErase fs p)
        ∧ remove_temp_file (fsErase fs p) p
            = Except.error (PyErr.fileNotFound p) := by
  constructor
  · intro fs p h
    simp [remove_temp_file, isdir, h]
  · intro fs p sr a h
    have h2 : fsLookup (fsErase fs p) p = none := by
      simp [fsLookup_fsErase]
    exact ⟨by simp [remove_temp_file, isdir, h],
           by simp [remove_temp_file, isdir, h2]⟩

/-- C1 (witness): double cleanup of a concrete file; the first call succeeds,
the second raises. -/
theorem remove_temp_file_raises_on_missing_witness :
    remove_temp_file [(tmpJoin "b.wav", FileData.wav 24000 [3])] (tmpJoin "b.wav")
      = Except.ok (fsErase [(tmpJoin "b.wav", FileData.wav 24000 [3])] (tmpJoin "b.wav"))
  ∧ remove_temp_file
      (fsErase [(tmpJoin "b.wav", FileData.wav 24000 [3])] (tmpJoin "b.wav"))
      (tmpJoin "b.wav")
      = Except.error (PyErr.fileNotFound (tmpJoin "b.wav")) :=
  remove_temp_file_raises_on_missing.2 _ _ 24000 [3] (by decide)

/-- C2: on an all-success batch with `zip_filename` not supplied, the zip
cleanup call references the never-assigned `final_zip_path` and raises
`UnboundLocalError`; only the row-artifact cleanups get scheduled.  With a
supplied `zip_filename` the same request schedules cleanup of the rows and of
the zip — the intended behavior the defect breaks. -/
theorem batch_zip_cleanup_unbound_local :
    (batch_predict envA dataBase ["t1"] ["a.wav"] st0).1
      = HandlerResult.pyError (PyErr.unboundLocal "final_zip_path")
  ∧ (batch_predict envA dataBase ["t1"] ["a.wav"] st0).2.cleanups
      = [tmpJoin "a.wav"]
  ∧ (batch_predict envA { dataBase with zip_filename := some "out.zip" }
        ["t1"] ["a.wav"] st0).2.cleanups
      = [tmpJoin "a.wav", tmpJoin "out.zip"] := by
  decide

/-- C3 (counterexample): in a 3-row batch whose second row fails, the handler
aborts with the synthesis error and row 3 is never produced — but contrary to
the claim it schedules no cleanup at all, although row 1's artifact was
created. -/
theorem batch_row_failure_no_cleanup_cex :
    (batch_predict envA dataBase ["t1", "t2", "t3"] ["f1", "f2", "f3"] st0).1
      = HandlerResult.httpError 500 "Error during inference"
  ∧ (batch_predict envA dataBase ["t1", "t2", "t3"] ["f1", "f2", "f3"]
        st0).2.artifacts = [tmpJoin "f1"]
  ∧ (batch_predict envA dataBase ["t1", "t2", "t3"] ["f1", "f2", "f3"]
        st0).2.cleanups = [] := by
  decide

/-- C6 (counterexample): a request whose `text_language` is not a key of
`LANG_DICT` is answered with the opaque 500 synthesis error, not with a
client error naming the key: the `KeyError` is raised while evaluating the
`infer` arguments, inside the `except Exception` block. -/
theorem unknown_language_server_error_cex :
    (predict envA { dataBase with text_language := "火星文" } st0).1
      = HandlerResult.httpError 500 "Error during inference" := by
  decide

/-- C6 (amended): when `prompt_language` or `text_language` is not a key of
the language table, the `KeyError` surfaces inside the generation try-block:
the handler logs one error entry and reports the opaque 500 server error
`Error during inference`, never a client error naming the key. -/
theorem unknown_language_opaque_500 (env : Env) (data : TTSModelRequest)
    (st : ServerState) (d : TTSModelRequest)
    (hres : resolveCharacter env data = Except.ok d)
    (hlang : resolvedLangs d = none) :
    (predict env data st).1 = HandlerResult.httpError 500 "Error during inference"
  ∧ (predict env data st).2.logs.length = st.logs.length + 1
  ∧ ∀ m c, (predict env data st).1 ≠ HandlerResult.clientError m c := by
  obtain ⟨-, -, -, -, -, -, hlg, -, -⟩ :=
    swapWeights_spec st d.sovits_weights d.gpt_weights
  have hmain : (predict env data st).1
        = HandlerResult.httpError 500 "Error during inference"
      ∧ (predict env data st).2.logs.length = st.logs.length + 1 := by
    cases hp : langLookupExc d.prompt_language with
    | error s =>
        have ht := tryGenerate_promptLangError env
          (swapWeights st d.sovits_weights d.gpt_weights) d d.text s hp
        simp [predict, hres, ht, hlg]
    | ok pl =>
        cases htx : LANG_DICT d.text_language with
        | none =>
            have ht := tryGenerate_textLangError env
              (swapWeights st d.sovits_weights d.gpt_weights) d d.text pl hp htx
            simp [predict, hres, ht, hlg]
        | some tl =>
            rw [resolvedLangs, hp, htx] at hlang
            exact absurd hlang (by simp)
  refine ⟨hmain.1, hmain.2, ?_⟩
  intro m c h
  rw [hmain.1] at h
  exact HandlerResult.noConfusion h

/-- C6 (witness): concrete request with an unknown `text_language`. -/
theorem unknown_language_opaque_500_witness :
    (predict envA { dataBase with text_language := "火星语" } st0).1
      = HandlerResult.httpError 500 "Error during inference"
  ∧ (predict envA { dataBase with text_language := "火星语" } st0).2.logs.length
      = st0.logs.length + 1
  ∧ ∀ m c, (predict envA { dataBase with text_language := "火星语" } st0).1
      ≠ HandlerResult.clientError m c :=
  unknown_language_opaque_500 envA { dataBase with text_language := "火星语" }
    st0 { dataBase with text_language := "火星语" } (by decide) (by decide)

/-- C7: a set but unknown `character_name` raises `KeyError` at the preset
lookup, caught by the outer handler as a client error naming the character;
the state is returned unchanged, so no weight swap and no inference call
happens. -/
theorem unknown_character_client_error_no_inference (env : Env)
    (data : TTSModelRequest) (st : ServerState) (name : String)
    (h1 : data.character_name = some name)
    (h2 : env.example_json name = none) :
    (predict env data st).1
      = HandlerResult.clientError ("Missing necessary parameter: " ++ name) 400
  ∧ (predict env data st).2 = st := by
  simp [predict, resolveCharacter, h1, h2]

/-- C7 (witness): the unknown character `ghost`. -/
theorem unknown_character_client_error_no_inference_witness :
    (predict envA { dataBase with character_name := some "ghost" } st0).1
      = HandlerResult.clientError ("Missing necessary parameter: " ++ "ghost") 400
  ∧ (predict envA { dataBase with character_name := some "ghost" } st0).2 = st0 :=
  unknown_character_client_error_no_inference envA _ st0 "ghost" rfl (by decide)

/-- C8: a known `character_name` overwrites `ref_audio_path`, `prompt_text`,
`prompt_language`, `gpt_weights` and `sovits_weights` with exactly the preset
recorded for it in the lookup table. -/
theorem known_character_overwrites_preset_fields (env : Env)
    (data : TTSModelRequest) (name : String) (p : CharacterPreset)
    (h1 : data.character_name = some name)
    (h2 : env.example_json name = some p) :
    ∃ d, resolveCharacter env data = Except.ok d
      ∧ d.ref_audio_path = some p.audio_path
      ∧ d.prompt_text = some p.ref_text
      ∧ d.prompt_language = some p.ref_language
      ∧ d.gpt_weights = some p.gpt_weights
      ∧ d.sovits_weights = some p.sovits_weights := by
  refine ⟨{ data with
      ref_audio_path := some p.audio_path
      prompt_text := some p.ref_text
      prompt_language := some p.ref_language
      gpt_weights := some p.gpt_weights
      sovits_weights := some p.sovits_weights }, ?_, rfl, rfl, rfl, rfl, rfl⟩
  simp [resolveCharacter, h1, h2]

/-- C8 (witness): resolving the known character `demo`. -/
theorem known_character_overwrites_preset_fields_witness :
    ∃ d, resolveCharacter envA { dataBase with character_name := some "demo" }
        = Except.ok d
      ∧ d.ref_audio_path = some presetDemo.audio_path
      ∧ d.prompt_text = some presetDemo.ref_text
      ∧ d.prompt_language = some presetDemo.ref_language
      ∧ d.gpt_weights = some presetDemo.gpt_weights
      ∧ d.sovits_weights = some presetDemo.sovits_weights :=
  known_character_overwrites_preset_fields envA _ "demo" presetDemo rfl (by decide)

/-- C9: when the engine raises during generation, the full detail is logged
server-side, the caller gets the fixed opaque message `Error during inference`
(independent of the internal message), and exactly one inference call was
made — the failure is terminal, with no retry. -/
theorem synthesis_failure_logged_opaque_terminal (env : Env)
    (data : TTSModelRequest) (st : ServerState) (d : TTSModelRequest)
    (pl tl msg : String)
    (hres : resolveCharacter env data = Except.ok d)
    (hpl : langLookupExc d.prompt_language = Except.ok pl)
    (htl : LANG_DICT d.text_language = some tl)
    (hfail : env.infer (mkInferCall d pl tl d.text) = Except.error msg) :
    (predict env data st).1 = HandlerResult.httpError 500 "Error during inference"
  ∧ (predict env data st).2.logs
      = st.logs ++ ["Error during inference: " ++ msg]
  ∧ (predict env data st).2.inferCalls
      = st.inferCalls ++ [mkInferCall d pl tl d.text] := by
  obtain ⟨-, -, -, -, -, -, hlg, hic, -⟩ :=
    swapWeights_spec st d.sovits_weights d.gpt_weights
  have ht := tryGenerate_inferError env
    (swapWeights st d.sovits_weights d.gpt_weights) d d.text pl tl msg hpl htl hfail
  simp [predict, hres, ht, hlg, hic]

/-- C9 (witness): the oracle fails on text `t2`. -/
theorem synthesis_failure_logged_opaque_terminal_witness :
    (predict envA { dataBase with text := "t2" } st0).1
      = HandlerResult.httpError 500 "Error during inference"
  ∧ (predict envA { dataBase with text := "t2" } st0).2.logs
      = st0.logs ++ ["Error during inference: " ++ "boom"]
  ∧ (predict envA { dataBase with text := "t2" } st0).2.inferCalls
      = st0.inferCalls
        ++ [mkInferCall { dataBase with text := "t2" } "all_zh" "all_zh" "t2"] :=
  synthesis_failure_logged_opaque_terminal envA { dataBase with text := "t2" }
    st0 { dataBase with text := "t2" } "all_zh" "all_zh" "boom"
    (by decide) (by decide) (by decide) (by decide)

end GPTSoVITS
